import Mathlib

/-!
Verification of the sandboxed filesystem layer (`FileTool`, `other/filetool.py`)

Shallow embedding of the `FileTool` class.  Absolute filesystem paths are
modelled as lists of path components (`List String`), counted from the real
filesystem root, so the Python path `/r/a/b` is `["r", "a", "b"]`.

The real filesystem visible to the tool is modelled as a finite association
list from absolute component lists to nodes (directory, regular file with its
text content, or symbolic link).  `Path.resolve()` / `os.path.realpath` is
modelled by `resolveGo`, which walks the components left to right, pops the
accumulated result on `..`, and follows symbolic links; a fuel parameter
bounds link expansion (CPython bounds cyclic expansion through its `seen`
cache; the model simply stops resolving when fuel runs out).

UTF-8 encoding/decoding is modelled by storing the text itself (encode/decode
of valid text round-trips); inode identity is modelled by canonical path
equality (`Path.samefile` on two canonicalized paths is true iff the paths
are equal, and raises `OSError` when either path does not exist).
-/

/-- A parsed `pathlib.Path` value: whether the input was absolute (had a root
marker) and its non-root components.  `PurePath` drops `"."` and empty
components and keeps `".."`, which `parsePath` below reproduces. -/
structure PyPath where
  absolute : Bool
  parts : List String
deriving DecidableEq

/-- Split a character list at every `'/'` (the pieces of `s.split("/")`). -/
def splitSlash : List Char → List Char → List String
  | [], cur => [String.mk cur.reverse]
  | c :: cs, cur =>
    if c = '/' then String.mk cur.reverse :: splitSlash cs []
    else splitSlash cs (c :: cur)

/-- Parse of a POSIX path string `s` as `pathlib.Path(s)`: absolute iff the string
begins with the `/` root marker; the parts are the slash-separated pieces
with empty pieces and `"."` dropped (as `PurePath` normalization does). -/
def parsePath (s : String) : PyPath :=
  { absolute := "/".data.isPrefixOf s.data
    parts := (splitSlash s.data []).filter (fun c => !(c == "") && !(c == ".")) }

/-- One filesystem node: a directory, a regular file holding UTF-8 text, or a
symbolic link holding its (possibly relative) target. -/
inductive Node where
  | dir : Node
  | file (content : String) : Node
  | symlink (target : PyPath) : Node
deriving DecidableEq

/-- The real filesystem: a finite map from absolute component paths to nodes. -/
abbrev FS : Type := List (List String × Node)

/-- Model of `os.lstat`: look the path itself up, without following a final symlink. -/
def lstat : FS → List String → Option Node
  | [], _ => none
  | (k, n) :: fs, p => if k = p then some n else lstat fs p

/-- The target of `p` when `p` is a symbolic link (`os.readlink` after an
`S_ISLNK` lstat test), `none` otherwise. -/
def linkTarget (fs : FS) (p : List String) : Option PyPath :=
  match lstat fs p with
  | some (Node.symlink t) => some t
  | _ => none

/-- Model of `os.path.realpath` (non-strict), the engine of `Path.resolve()`: process
components left to right from the filesystem root; `.` is skipped, `..` pops
the already-resolved accumulator, and a symlink component is replaced by its
target (restarting from the filesystem root when the target is absolute).
`fuel` bounds symlink expansion; on exhaustion the remaining components are
appended lexically, mirroring CPython's refusal to loop forever on cycles. -/
def resolveGo (fs : FS) : Nat → List String → List String → List String
  | _, acc, [] => acc
  | 0, acc, rest => acc ++ rest
  | fuel + 1, acc, c :: rest =>
    if c = "." then resolveGo fs fuel acc rest
    else if c = ".." then resolveGo fs fuel acc.dropLast rest
    else
      match linkTarget fs (acc ++ [c]) with
      | some tgt => resolveGo fs fuel (if tgt.absolute then [] else acc) (tgt.parts ++ rest)
      | none => resolveGo fs fuel (acc ++ [c]) rest

/-- Step 1 of `FileTool._resolve_path` (lines 33–43): an absolute input is
stripped of its root marker and re-anchored under `root_path`
(`root_path / target.relative_to(target.root)`); a relative input is anchored
under `current_dir` (`current_dir / target`). -/
def anchor (root cur : List String) (loc : PyPath) : List String :=
  (if loc.absolute then root else cur) ++ loc.parts

/-- Result of `FileTool._resolve_path`: a resolved path, the `None` denial, or
an uncaught `OSError` escaping from `Path.samefile`. -/
inductive ResolveOutcome where
  | ok (q : List String) : ResolveOutcome
  | denied : ResolveOutcome
  | exc : ResolveOutcome
deriving DecidableEq

/-- The check of `FileTool._resolve_path` (lines 45–53): given the canonical path, it
with `resolve()` (symlinks included), then check containment:
`root_path in resolved.parents` is the strict lexical-ancestor test on the
canonical result, and otherwise `root_path.samefile(resolved)` stats both
paths — raising `OSError` when either does not exist — and compares inodes,
which on canonical paths means path equality. -/
def containCheck (fs : FS) (root q : List String) : ResolveOutcome :=
  if root.isPrefixOf q && !(root == q) then .ok q
  else if (lstat fs root).isSome && (lstat fs q).isSome then
    (if root == q then .ok q else .denied)
  else .exc

/-- Model of `FileTool._resolve_path` (lines 21–53): canonicalize the anchored input and
apply the containment check to the canonical result. -/
def resolvePathOutcome (fs : FS) (root cur : List String) (loc : PyPath) (fuel : Nat) :
    ResolveOutcome :=
  containCheck fs root (resolveGo fs fuel [] (anchor root cur loc))

/-- The mutable state of a `FileTool` instance: the resolved sandbox root and
the current-directory cursor (`__init__` sets both to the resolved root). -/
structure FileToolState where
  root_path : List String
  current_dir : List String
deriving DecidableEq

/-- Rendering `str(p)` of a relative `pathlib.Path` built from components: the empty
component list is `Path('.')`, rendered `"."`. -/
def pyPathStr : List String → String
  | [] => "."
  | p :: ps => String.intercalate "/" (p :: ps)

/-- The `f"/{resolved.relative_to(root)}"` rendering used by `read_file` and
`get_current_directory`: a sandbox-relative path with a single leading `/`. -/
def relStr (root q : List String) : String :=
  "/" ++ pyPathStr (q.drop root.length)

/-- A Python call result: either a returned value or an uncaught exception. -/
inductive PyResult (α : Type) where
  | exc : PyResult α
  | ret (val : α) : PyResult α
deriving DecidableEq

/-- Model of `FileTool.exists` (lines 97–111). -/
def existsF (fs : FS) (st : FileToolState) (locStr : String) (fuel : Nat) : PyResult String :=
  match resolvePathOutcome fs st.root_path st.current_dir (parsePath locStr) fuel with
  | .exc => .exc
  | .denied => .ret "访问被拒绝：路径超出根目录范围"
  | .ok q => .ret (if (lstat fs q).isSome then "文件/目录存在" else "文件/目录不存在")

/-- Model of `FileTool.get_current_directory` (lines 113–120): renders
`current_dir.relative_to(root_path)` behind a single leading `/`;
`relative_to` raises `ValueError` when the root is not a lexical prefix. -/
def get_current_directory (st : FileToolState) : PyResult String :=
  if st.root_path.isPrefixOf st.current_dir then
    .ret ("/" ++ pyPathStr (st.current_dir.drop st.root_path.length))
  else .exc

/-- Model of `FileTool.change_directory` (lines 122–144): resolve, deny out-of-root,
report a missing or non-directory target without mutating, and otherwise
commit the cursor and report the new location. -/
def change_directory (fs : FS) (st : FileToolState) (locStr : String) (fuel : Nat) :
    FileToolState × PyResult String :=
  match resolvePathOutcome fs st.root_path st.current_dir (parsePath locStr) fuel with
  | .exc => (st, .exc)
  | .denied => (st, .ret "访问被拒绝：路径超出根目录范围")
  | .ok q =>
    if (lstat fs q).isNone then (st, .ret ("切换失败：目录不存在 - " ++ locStr))
    else if !(lstat fs q == some Node.dir) then
      (st, .ret ("切换失败：" ++ locStr ++ " 不是一个目录"))
    else
      let st' := { st with current_dir := q }
      match get_current_directory st' with
      | .ret s => (st', .ret ("已切换到: " ++ s))
      | .exc => (st', .exc)

/-- Whether a `change_directory` result is the success message (the string
beginning `已切换到`). -/
def cdSucceeded : PyResult String → Bool
  | .ret s => "已切换到".data.isPrefixOf s.data
  | .exc => false

/-- Model of `Path.mkdir(parents=True, exist_ok=True)` starting from the filesystem
root: create every missing component as a directory; an existing
non-directory component raises (modelled as `none`). -/
def mkdirsGo (fs : FS) (acc : List String) : List String → Option FS
  | [] => some fs
  | c :: rest =>
    match lstat fs (acc ++ [c]) with
    | some Node.dir => mkdirsGo fs (acc ++ [c]) rest
    | none => mkdirsGo ((acc ++ [c], Node.dir) :: fs) (acc ++ [c]) rest
    | some _ => none

/-- Model of `FileTool.make_directory` (lines 171–196): resolve, deny out-of-root,
`mkdir` with parents, and echo the root-relative path on success or failure
(the underlying system error text is abstracted away). -/
def make_directory (fs : FS) (st : FileToolState) (locStr : String) (fuel : Nat) :
    FS × PyResult String :=
  match resolvePathOutcome fs st.root_path st.current_dir (parsePath locStr) fuel with
  | .exc => (fs, .exc)
  | .denied => (fs, .ret "访问被拒绝：路径超出根目录范围")
  | .ok q =>
    match mkdirsGo fs [] q with
    | some fs' => (fs', .ret ("已创建目录: " ++ pyPathStr (q.drop st.root_path.length)))
    | none =>
      (fs, .ret ("创建目录失败: " ++ pyPathStr (q.drop st.root_path.length) ++ "，错误: "))

/-- Model of `FileTool.write_file` (lines 198–230): resolve, deny out-of-root, create
the parent directories, encode the content as UTF-8 and write it, replacing
whatever the path held before; `open('wb')` on a directory raises
`IsADirectoryError`, which the `except` arm reports as `写入文件失败`. -/
def write_file (fs : FS) (st : FileToolState) (locStr content : String) (fuel : Nat) :
    FS × PyResult String :=
  match resolvePathOutcome fs st.root_path st.current_dir (parsePath locStr) fuel with
  | .exc => (fs, .exc)
  | .denied => (fs, .ret "访问被拒绝：路径超出根目录范围")
  | .ok q =>
    match mkdirsGo fs [] q.dropLast with
    | none => (fs, .ret "写入文件失败: ")
    | some fs1 =>
      match lstat fs1 q with
      | some Node.dir => (fs1, .ret "写入文件失败: ")
      | some (Node.symlink _) => (fs1, .ret "写入文件失败: ")
      | _ =>
        ((q, Node.file content) :: fs1,
          .ret ("已写入文件: " ++ relStr st.root_path q ++ "\n大小: "
            ++ toString content.utf8ByteSize ++ " 字节"))

/-- The dictionary returned by `FileTool.read_file`: either
`{'state': 'ok', 'path': …, 'file_content': …}` or
`{'state': 'error', 'reason': …, 'path': …}`. -/
inductive ReadDict where
  | ok (path content : String) : ReadDict
  | err (reason path : String) : ReadDict
deriving DecidableEq

/-- Model of `FileTool.read_file` (lines 232–284): resolve; on denial echo the
caller's original string as the `path` field, otherwise echo the
sandbox-relative resolved path; report a directory target, then a missing
target, then read the UTF-8 content (decode of stored text always succeeds;
the catch-all arm covers the remaining unreadable shapes). -/
def read_file (fs : FS) (st : FileToolState) (locStr : String) (fuel : Nat) :
    PyResult ReadDict :=
  match resolvePathOutcome fs st.root_path st.current_dir (parsePath locStr) fuel with
  | .exc => .exc
  | .denied => .ret (.err "访问被拒绝：路径超出根目录范围" locStr)
  | .ok q =>
    if lstat fs q == some Node.dir then .ret (.err "无法读取目录内容" (relStr st.root_path q))
    else if (lstat fs q).isNone then .ret (.err "文件不存在" (relStr st.root_path q))
    else
      match lstat fs q with
      | some (Node.file c) => .ret (.ok (relStr st.root_path q) c)
      | _ => .ret (.err "读取文件失败: " (relStr st.root_path q))

/-- Names of the immediate children of the directory reached through the
lexical path `d` (`os.listdir` follows symlinks on `d`). -/
def childNames (fs : FS) (rfuel : Nat) (d : List String) : List String :=
  (((fs.map (fun e => e.1)).filterMap (fun k =>
    if k.dropLast = resolveGo fs rfuel [] d ∧ k ≠ [] then k.getLast? else none)).dedup)

/-- Directory test (`entry.is_dir()`, following symlinks) for the lexical path `p`. -/
def isDirAt (fs : FS) (rfuel : Nat) (p : List String) : Bool :=
  lstat fs (resolveGo fs rfuel [] p) == some Node.dir

/-- Model of `os.walk(d, topdown=True, followlinks=True)`: yield
`(dirpath, dirnames, filenames)` for `d` and recurse into every subdirectory
name — including names that are symlinks to directories — under the lexical
path `d ++ [name]`.  `depth` bounds the recursion (the source has no such
bound and can loop forever on a symlink cycle). -/
def walk (fs : FS) (rfuel : Nat) : Nat → List String → List (List String × List String × List String)
  | 0, _ => []
  | depth + 1, d =>
    let names := childNames fs rfuel d
    let subdirs := names.filter (fun n => isDirAt fs rfuel (d ++ [n]))
    let files := names.filter (fun n => !(isDirAt fs rfuel (d ++ [n])))
    (d, subdirs, files) :: (subdirs.map (fun n => walk fs rfuel depth (d ++ [n]))).flatten

/-- Model of `str.strip()`: remove leading and trailing whitespace. -/
def pyStrip (s : String) : String :=
  String.mk (((s.data.dropWhile Char.isWhitespace).reverse.dropWhile Char.isWhitespace).reverse)

/-- The value stored for one directory in the tree mapping:
`f"{chr(10).join(files)}\n{dirs tagged}".strip()`. -/
def fmtEntry (files subdirs : List String) : String :=
  pyStrip (String.intercalate "\n" files ++ "\n"
    ++ String.intercalate "\n" (subdirs.map (fun d => d ++ " (目录)")))

/-- Result of `FileTool.get_directory_tree`. -/
inductive TreeResult where
  | exc : TreeResult
  | error (msg : String) : TreeResult
  | ok (entries : List (List String × String)) : TreeResult
deriving DecidableEq

/-- Model of `FileTool.get_directory_tree` (lines 55–95): resolve and containment-check
the *argument* directory, then `os.walk` it with `followlinks=True` — no
further containment check — and key each visited directory by
`Path(dirname).relative_to(root_path)` (a lexical strip of the root). -/
def get_directory_tree (fs : FS) (st : FileToolState) (dirStr : String) (fuel : Nat) :
    TreeResult :=
  match resolvePathOutcome fs st.root_path st.current_dir (parsePath dirStr) fuel with
  | .exc => .exc
  | .denied => .error "路径超出根目录范围"
  | .ok q =>
    if (lstat fs q).isNone then .error ("目录不存在: " ++ dirStr)
    else if !(lstat fs q == some Node.dir) then .error (dirStr ++ " 不是一个目录")
    else
      .ok ((walk fs fuel fuel q).map
        (fun e => (e.1.drop st.root_path.length, fmtEntry e.2.2 e.2.1)))

/-- One public `FileTool` call together with its arguments. -/
inductive Op where
  | cd (loc : String) : Op
  | wr (loc content : String) : Op
  | mk (loc : String) : Op
  | rd (loc : String) : Op
  | ex (loc : String) : Op
  | tree (loc : String) : Op
  | pwd : Op
  | ls : Op

/-- Effect of one call on the filesystem and the tool state.  Only
`change_directory` moves the cursor; only `write_file` and `make_directory`
change the filesystem; the remaining five calls mutate nothing. -/
def applyOp (fs : FS) (st : FileToolState) (fuel : Nat) : Op → FS × FileToolState
  | .cd loc => (fs, (change_directory fs st loc fuel).1)
  | .wr loc c => ((write_file fs st loc c fuel).1, st)
  | .mk loc => ((make_directory fs st loc fuel).1, st)
  | _ => (fs, st)

/-- States observable from a freshly constructed `FileTool` (whose
`__init__` sets `current_dir := root_path`) through any sequence of calls. -/
inductive Reachable : FS → FileToolState → Prop
  | init (fs : FS) (r : List String) : Reachable fs ⟨r, r⟩
  | step (fs : FS) (st : FileToolState) (fuel : Nat) (op : Op) :
      Reachable fs st → Reachable (applyOp fs st fuel op).1 (applyOp fs st fuel op).2

/-- Predicate: `cleanComps fs acc xs = true` says that walking the components `xs` from
the already-resolved prefix `acc` meets no `.`, no `..`, and no symlink — the
well-formedness a canonical root path has on a real filesystem. -/
def cleanComps (fs : FS) : List String → List String → Bool
  | _, [] => true
  | acc, c :: rest =>
    !(c == ".") && !(c == "..") && (linkTarget fs (acc ++ [c])).isNone
      && cleanComps fs (acc ++ [c]) rest

/-- Iteration: `n` repetitions of `change_directory` with the same argument. -/
def iterCd (fs : FS) (st : FileToolState) (locStr : String) (fuel : Nat) : Nat → FileToolState
  | 0 => st
  | n + 1 => (change_directory fs (iterCd fs st locStr fuel n) locStr fuel).1

/-! ## Basic lemmas about the embedding -/

theorem lstat_cons (k : List String) (n : Node) (fs : FS) (p : List String) :
    lstat ((k, n) :: fs) p = if k = p then some n else lstat fs p := rfl

/-- The two ways the containment check can return a path: the strict
`parents`-membership test succeeded, or the path is the (existing) root and
`samefile` succeeded. -/
theorem containCheck_ok_cases {fs : FS} {root p q : List String}
    (h : containCheck fs root p = .ok q) :
    q = p ∧ ((root <+: q ∧ root ≠ q) ∨ (root = q ∧ (lstat fs root).isSome = true)) := by
  unfold containCheck at h
  split at h
  · rename_i hc
    cases h
    simp only [Bool.and_eq_true, Bool.not_eq_true', beq_eq_false_iff_ne, ne_eq,
      List.isPrefixOf_iff_prefix] at hc
    exact ⟨rfl, Or.inl ⟨hc.1, fun e => hc.2 e⟩⟩
  · split at h
    · rename_i hboth
      split at h
      · rename_i hr
        cases h
        simp only [beq_iff_eq] at hr
        simp only [Bool.and_eq_true] at hboth
        exact ⟨rfl, Or.inr ⟨hr, hboth.1⟩⟩
      · exact absurd h (by simp)
    · exact absurd h (by simp)

/-- Converse construction for the containment check. -/
theorem containCheck_ok_intro {fs : FS} {root q : List String}
    (hc : (root <+: q ∧ root ≠ q) ∨ (root = q ∧ (lstat fs root).isSome = true)) :
    containCheck fs root q = .ok q := by
  unfold containCheck
  rcases hc with ⟨h1, h2⟩ | ⟨h1, h2⟩
  · rw [if_pos]
    simp only [Bool.and_eq_true, Bool.not_eq_true', beq_eq_false_iff_ne, ne_eq,
      List.isPrefixOf_iff_prefix]
    exact ⟨h1, h2⟩
  · subst h1
    rw [if_neg, if_pos, if_pos]
    · simp
    · simp [h2]
    · simp

theorem resolve_ok_cases {fs : FS} {root cur : List String} {loc : PyPath} {fuel : Nat}
    {q : List String} (h : resolvePathOutcome fs root cur loc fuel = .ok q) :
    q = resolveGo fs fuel [] (anchor root cur loc) ∧
      ((root <+: q ∧ root ≠ q) ∨ (root = q ∧ (lstat fs root).isSome = true)) :=
  containCheck_ok_cases h

theorem resolve_ok_within {fs : FS} {root cur : List String} {loc : PyPath} {fuel : Nat}
    {q : List String} (h : resolvePathOutcome fs root cur loc fuel = .ok q) :
    root <+: q := by
  rcases (resolve_ok_cases h).2 with ⟨h1, _⟩ | ⟨h1, _⟩
  · exact h1
  · exact h1 ▸ List.prefix_refl root

/-- Resolution (`resolveGo`) only inspects the symlink structure of the filesystem: two
filesystems whose `linkTarget` maps agree resolve every path identically.
This is what makes creating directories and regular files (which never adds
or changes a symlink) transparent to path resolution. -/
theorem resolveGo_congr {fs fs' : FS}
    (hsym : ∀ p, linkTarget fs p = linkTarget fs' p) :
    ∀ (fuel : Nat) (acc rest : List String),
      resolveGo fs fuel acc rest = resolveGo fs' fuel acc rest := by
  intro fuel
  induction fuel with
  | zero =>
    intro acc rest
    cases rest with
    | nil => rfl
    | cons c r => rfl
  | succ n ih =>
    intro acc rest
    cases rest with
    | nil => rfl
    | cons c r =>
      simp only [resolveGo]
      by_cases hdot : c = "."
      · rw [if_pos hdot, if_pos hdot, ih]
      · rw [if_neg hdot, if_neg hdot]
        by_cases hdd : c = ".."
        · rw [if_pos hdd, if_pos hdd, ih]
        · rw [if_neg hdd, if_neg hdd, ← hsym (acc ++ [c])]
          cases linkTarget fs (acc ++ [c]) with
          | none => exact ih _ _
          | some tgt => exact ih _ _

/-- Effect of `mkdir(parents=True, exist_ok=True)` on the filesystem map:
every path either keeps its node or goes from absent to directory. -/
theorem mkdirsGo_lstat :
    ∀ {rest : List String} {fs fs1 : FS} {acc : List String},
      mkdirsGo fs acc rest = some fs1 →
      ∀ p, lstat fs1 p = lstat fs p ∨ (lstat fs p = none ∧ lstat fs1 p = some Node.dir) := by
  intro rest
  induction rest with
  | nil =>
    intro fs fs1 acc h p
    cases h
    exact Or.inl rfl
  | cons c rest ih =>
    intro fs fs1 acc h p
    unfold mkdirsGo at h
    cases hl : lstat fs (acc ++ [c]) with
    | some n =>
      cases n with
      | dir =>
        rw [hl] at h
        exact ih h p
      | file content => rw [hl] at h; cases h
      | symlink t => rw [hl] at h; cases h
    | none =>
      rw [hl] at h
      have h' : mkdirsGo ((acc ++ [c], Node.dir) :: fs) (acc ++ [c]) rest = some fs1 := h
      by_cases hp : acc ++ [c] = p
      · rcases ih h' p with h1 | ⟨h1, h2⟩
        · rw [lstat_cons, if_pos hp] at h1
          exact Or.inr ⟨hp ▸ hl, h1⟩
        · rw [lstat_cons, if_pos hp] at h1
          cases h1
      · rcases ih h' p with h1 | ⟨h1, h2⟩
        · rw [lstat_cons, if_neg hp] at h1
          exact Or.inl h1
        · rw [lstat_cons, if_neg hp] at h1
          exact Or.inr ⟨h1, h2⟩

/-- Walking clean components (no dots, no symlinks) just appends them to the
accumulator, consuming one unit of fuel per component. -/
theorem resolveGo_clean_append {fs : FS} :
    ∀ (xs : List String) (acc rest : List String) (fuel : Nat),
      cleanComps fs acc xs = true →
      resolveGo fs (xs.length + fuel) acc (xs ++ rest) = resolveGo fs fuel (acc ++ xs) rest := by
  intro xs
  induction xs with
  | nil =>
    intro acc rest fuel _
    simp
  | cons c xs ih =>
    intro acc rest fuel hclean
    unfold cleanComps at hclean
    simp only [Bool.and_eq_true, Bool.not_eq_true', beq_eq_false_iff_ne, ne_eq,
      Option.isNone_iff_eq_none] at hclean
    obtain ⟨⟨⟨hc1, hc2⟩, hc3⟩, hc4⟩ := hclean
    have hlen : (c :: xs).length + fuel = (xs.length + fuel) + 1 := by
      simp [List.length_cons]
      omega
    rw [hlen, List.cons_append]
    simp only [resolveGo]
    rw [if_neg hc1, if_neg hc2, hc3, ih (acc ++ [c]) rest fuel hc4]
    simp

/-- Case analysis on `change_directory`: either the state is returned
untouched, or the resolution succeeded and the cursor was set to the
resolved path. -/
theorem cd_cases (fs : FS) (st : FileToolState) (locStr : String) (fuel : Nat) :
    (change_directory fs st locStr fuel).1 = st ∨
      ∃ q, resolvePathOutcome fs st.root_path st.current_dir (parsePath locStr) fuel = .ok q ∧
        (change_directory fs st locStr fuel).1 = { st with current_dir := q } := by
  unfold change_directory
  cases hr : resolvePathOutcome fs st.root_path st.current_dir (parsePath locStr) fuel with
  | exc => exact Or.inl rfl
  | denied => exact Or.inl rfl
  | ok q =>
    by_cases h1 : (lstat fs q).isNone
    · simp only [h1, if_pos]
      exact Or.inl (by simp [h1])
    · simp only [h1]
      by_cases h2 : (lstat fs q == some Node.dir) = false
      · refine Or.inl ?_
        simp [h1, h2]
      · refine Or.inr ⟨q, rfl, ?_⟩
        simp only [Bool.not_eq_false] at h2
        simp only [h1, h2, if_neg, if_false, Bool.not_true]
        cases hgc : get_current_directory { st with current_dir := q } with
        | ret s => simp [h2]
        | exc => simp [h2]

/-- The sandbox root is never changed by `change_directory`. -/
theorem cd_root_eq (fs : FS) (st : FileToolState) (locStr : String) (fuel : Nat) :
    (change_directory fs st locStr fuel).1.root_path = st.root_path := by
  rcases cd_cases fs st locStr fuel with h | ⟨q, _, h⟩ <;> rw [h]

/-- Setting the cursor to its current value is the identity on the state. -/
theorem setCur_self (st : FileToolState) : { st with current_dir := st.current_dir } = st := by
  cases st
  rfl

/-- From a cursor standing at a clean canonical root, `change_directory("..")`
resolves to the root's parent, which the containment check rejects (or, for
the filesystem root, resolves to the root itself), so the state is returned
unchanged. -/
theorem cd_dotdot_fix {fs : FS} {st : FileToolState} {fuel : Nat}
    (hcur : st.current_dir = st.root_path)
    (hclean : cleanComps fs [] st.root_path = true)
    (hfuel : st.root_path.length + 2 ≤ fuel) :
    (change_directory fs st ".." fuel).1 = st := by
  have hpp : parsePath ".." = ⟨false, [".."]⟩ := by decide
  have hanch : anchor st.root_path st.current_dir (parsePath "..") = st.root_path ++ [".."] := by
    rw [hcur, hpp]
    rfl
  have hres : resolveGo fs fuel [] (st.root_path ++ [".."]) = st.root_path.dropLast := by
    obtain ⟨k, hk⟩ : ∃ k, fuel = st.root_path.length + (k + 2) :=
      ⟨fuel - (st.root_path.length + 2), by omega⟩
    rw [hk, resolveGo_clean_append st.root_path [] [".."] (k + 2) hclean]
    simp [resolveGo]
  have houtcome : resolvePathOutcome fs st.root_path st.current_dir (parsePath "..") fuel =
      containCheck fs st.root_path st.root_path.dropLast := by
    unfold resolvePathOutcome
    rw [hanch, hres]
  rcases cd_cases fs st ".." fuel with h | ⟨q, hok, h⟩
  · exact h
  · rw [houtcome] at hok
    obtain ⟨hq, hcase⟩ := containCheck_ok_cases hok
    rcases hcase with ⟨h1, h2⟩ | ⟨h1, h2⟩
    · exfalso
      cases hroot : st.root_path with
      | nil =>
        rw [hroot] at h1 h2 hq
        exact h2 (hq ▸ rfl)
      | cons r rs =>
        have hle := h1.length_le
        rw [hq, List.length_dropLast, hroot] at hle
        simp only [List.length_cons] at hle
        omega
    · have hnil : st.root_path = [] := by
        have hlen : st.root_path.length = st.root_path.dropLast.length := by rw [← hq, h1]
        rw [List.length_dropLast] at hlen
        exact List.eq_nil_of_length_eq_zero (by omega)
      have hqc : q = st.current_dir := by rw [← h1, hcur]
      rw [h, hqc, setCur_self]

/-- Every directory yielded by `os.walk(d)` lies lexically at or beneath `d`. -/
theorem walk_extends {fs : FS} {rfuel : Nat} :
    ∀ {depth : Nat} {d : List String} {e : List String × List String × List String},
      e ∈ walk fs rfuel depth d → d <+: e.1 := by
  intro depth
  induction depth with
  | zero =>
    intro d e h
    exact absurd h (List.not_mem_nil e)
  | succ n ih =>
    intro d e h
    simp only [walk, List.mem_cons] at h
    rcases h with h | h
    · subst h
      exact List.prefix_refl d
    · rw [List.mem_flatten] at h
      obtain ⟨l, hl, hel⟩ := h
      rw [List.mem_map] at hl
      obtain ⟨nm, _, rfl⟩ := hl
      exact (List.prefix_append d [nm]).trans (ih hel)

/-- A string prefix survives appending to the longer string. -/
theorem strData_isPrefixOf_append (a b s : String) (h : a.data.isPrefixOf b.data = true) :
    a.data.isPrefixOf (b ++ s).data = true := by
  rw [ List.isPrefixOf_iff_prefix] at h ⊢
  rw [String.data_append]
  exact h.trans (List.prefix_append _ _)

/-! ## Concrete filesystems used as witnesses and counterexamples -/

/-- Filesystem with `/` and a sandbox root `/r`. -/
def fsRootOnly : FS := [([], Node.dir), (["r"], Node.dir)]

/-- Filesystem with `/`, sandbox root `/r`, and a directory `/r/a`. -/
def fsOne : FS := [([], Node.dir), (["r"], Node.dir), (["r", "a"], Node.dir)]

/-- Filesystem with `/`, sandbox root `/r`, nested directories `/r/a` and `/r/a/a`. -/
def fsNested : FS :=
  [([], Node.dir), (["r"], Node.dir), (["r", "a"], Node.dir), (["r", "a", "a"], Node.dir)]

/-- Filesystem with `/`, sandbox root `/r`, and sibling directories `/a`, `/b` outside it. -/
def fsSibling : FS := [([], Node.dir), (["r"], Node.dir), (["a"], Node.dir), (["b"], Node.dir)]

/-- Filesystem with `/`, sandbox root `/r` containing a symlink `/r/s -> /o`, and an outside
directory `/o` holding the file `/o/secret`. -/
def fsLink : FS :=
  [([], Node.dir), (["r"], Node.dir), (["r", "s"], Node.symlink ⟨true, ["o"]⟩),
    (["o"], Node.dir), (["o", "secret"], Node.file "x")]

/-! ## The claims -/

/-- C1: whenever `_resolve_path` returns a path rather than a denial, that
path — the full canonicalization of the anchored input, symlinks included —
equals `root` or has `root` as a proper ancestor; this holds for arbitrary
inputs (any combination of `..`, absolute-looking strings, and symlinks
pointing outside root), because the containment check is applied to the
output of `resolve()`. -/
theorem resolve_ok_is_contained (fs : FS) (root cur : List String) (loc : PyPath)
    (fuel : Nat) (q : List String)
    (h : resolvePathOutcome fs root cur loc fuel = .ok q) :
    q = root ∨ (root <+: q ∧ root ≠ q) := by
  rcases (resolve_ok_cases h).2 with ⟨h1, h2⟩ | ⟨h1, _⟩
  · exact Or.inr ⟨h1, h2⟩
  · exact Or.inl h1.symm

theorem resolve_ok_is_contained_witness :
    (["r", "a"] : List String) = ["r"] ∨ (["r"] <+: ["r", "a"] ∧ ["r"] ≠ ["r", "a"]) :=
  resolve_ok_is_contained fsOne ["r"] ["r"] ⟨false, ["a"]⟩ 10 ["r", "a"] (by decide)

/-- C4 (refuted — `failing_input`): the claim says expected failures are
always returned as structured results and in particular that `exists` on any
out-of-root path reports the containment denial rather than throwing.  But
for an out-of-root path that does not exist (`../nope` from root `/r`, with
`/nope` absent), `self.root_path.samefile(resolved_path)` raises
`FileNotFoundError` — the `parents` test is false, so `samefile` stats the
nonexistent resolved path — and `exists` propagates the exception, contrary
to `_resolve_path`'s own docstring, which promises `None` for out-of-root
paths. -/
theorem exists_raises_on_missing_outside_path :
    existsF fsRootOnly ⟨["r"], ["r"]⟩ "../nope" 10 = PyResult.exc := by decide

/-- C8: an absolute input is stripped of its root component and re-anchored
under the sandbox root — resolution then proceeds from `root ++ parts`, never
from the real filesystem root, and is independent of the cursor — while a
relative input is anchored under `current_dir`.  Resolving an absolute input
is the same as resolving the corresponding relative input from a cursor
standing at the root. -/
theorem absolute_inputs_reanchored (fs : FS) (root cur cur' : List String)
    (parts : List String) (fuel : Nat) :
    anchor root cur ⟨true, parts⟩ = root ++ parts ∧
    anchor root cur ⟨false, parts⟩ = cur ++ parts ∧
    resolvePathOutcome fs root cur ⟨true, parts⟩ fuel =
      resolvePathOutcome fs root cur' ⟨true, parts⟩ fuel ∧
    resolvePathOutcome fs root cur ⟨true, parts⟩ fuel =
      resolvePathOutcome fs root root ⟨false, parts⟩ fuel :=
  ⟨rfl, rfl, rfl, rfl⟩

/-- C10: with the cursor at the root, `get_current_directory` returns `"/."`
(`current_dir.relative_to(root)` is `Path('.')`, rendered `.` behind the
leading slash), not the bare `"/"`; any deeper in-root cursor yields `/`
followed by the root-relative path. -/
theorem current_directory_rendering (st : FileToolState) :
    (st.current_dir = st.root_path → get_current_directory st = .ret "/.") ∧
    (∀ rest, st.current_dir = st.root_path ++ rest →
      get_current_directory st = .ret ("/" ++ pyPathStr rest)) := by
  constructor
  · intro h
    unfold get_current_directory
    rw [h, if_pos (by simp [ List.isPrefixOf_iff_prefix]), List.drop_length]
    decide
  · intro rest h
    unfold get_current_directory
    rw [h, if_pos, List.drop_left]
    simp only [ List.isPrefixOf_iff_prefix]
    exact List.prefix_append _ _

theorem current_directory_rendering_witness :
    get_current_directory ⟨["r"], ["r"]⟩ = PyResult.ret "/." :=
  (current_directory_rendering ⟨["r"], ["r"]⟩).1 rfl

/-- C3 (refuted): the claim says the tree traversal applies the containment
check to each visited node, so no directory whose symlink target resolves
outside root is entered or listed.  In `fsLink` the symlink `/r/s -> /o`
points outside the root `/r`, yet `get_directory_tree(".")` enters it and
lists `/o`'s contents under the key `s` — the walk's reported directory
`/r/s` canonicalizes to `/o`, which is not at or beneath the root. -/
theorem tree_walks_outside_root :
    get_directory_tree fsLink ⟨["r"], ["r"]⟩ "." 10 =
      TreeResult.ok [([], "s (目录)"), (["s"], "secret")] ∧
    (["s"], "secret") ∈ [(([] : List String), "s (目录)"), (["s"], "secret")] ∧
    resolveGo fsLink 10 [] (["r"] ++ ["s"]) = ["o"] ∧
    ¬ (["r"] <+: ["o"]) :=
  ⟨by decide, by decide, by decide, by decide⟩

/-- C3 (amended): the containment check is applied only to the argument
directory of the traversal; every directory reported by the walk lies
lexically at or beneath that checked starting directory, but symlinked
subdirectories are followed without re-checking containment, so a reported
directory may canonicalize to a location outside root. -/
theorem tree_keys_under_checked_start (fs : FS) (st : FileToolState) (dirStr : String)
    (fuel : Nat) (entries : List (List String × String))
    (h : get_directory_tree fs st dirStr fuel = .ok entries) :
    ∃ q, resolvePathOutcome fs st.root_path st.current_dir (parsePath dirStr) fuel = .ok q ∧
      st.root_path <+: q ∧ ∀ e ∈ entries, q <+: st.root_path ++ e.1 := by
  unfold get_directory_tree at h
  split at h
  · cases h
  · cases h
  · rename_i q heq
    split at h
    · cases h
    · split at h
      · cases h
      · cases h
        refine ⟨q, heq, resolve_ok_within heq, ?_⟩
        intro e he
        rw [List.mem_map] at he
        obtain ⟨w, hw, rfl⟩ := he
        have hqw : q <+: w.1 := walk_extends hw
        obtain ⟨t, ht⟩ := (resolve_ok_within heq).trans hqw
        show q <+: st.root_path ++ (w.1.drop st.root_path.length)
        rw [← ht, List.drop_left, ht]
        exact hqw

theorem tree_keys_under_checked_start_witness :
    ∃ q, resolvePathOutcome fsLink ["r"] ["r"] (parsePath ".") 10 = .ok q ∧
      ["r"] <+: q ∧
      ∀ e ∈ [(([] : List String), "s (目录)"), (["s"], "secret")], q <+: ["r"] ++ e.1 :=
  tree_keys_under_checked_start fsLink ⟨["r"], ["r"]⟩ "." 10
    [([], "s (目录)"), (["s"], "secret")] (by decide)

/-- C9 (refuted): the claim says every denial/failure result echoes the
caller's original path.  The containment denial of `exists` is the constant
string `访问被拒绝：路径超出根目录范围`, identical for the distinct failing
inputs `../a` and `../b` and containing no `a` at all — it carries no path. -/
theorem denial_carries_no_path :
    existsF fsSibling ⟨["r"], ["r"]⟩ "../a" 10 =
      PyResult.ret "访问被拒绝：路径超出根目录范围" ∧
    existsF fsSibling ⟨["r"], ["r"]⟩ "../b" 10 =
      existsF fsSibling ⟨["r"], ["r"]⟩ "../a" 10 ∧
    ¬ ('a' ∈ "访问被拒绝：路径超出根目录范围".data) :=
  ⟨by decide, by decide, by decide⟩

/-- C9 (amended): of the failure results, `read_file`'s do carry a `path`
field, and it never exposes a real filesystem path: on a containment denial
it is the caller's original string, and in every other failure it is the
sandbox-relative rendering (a leading `/` plus the canonical path with the
real root prefix stripped) of an in-root resolved path. -/
theorem read_file_errors_echo_path (fs : FS) (st : FileToolState) (locStr : String)
    (fuel : Nat) (r pth : String)
    (h : read_file fs st locStr fuel = .ret (.err r pth)) :
    pth = locStr ∨
      ∃ q, resolvePathOutcome fs st.root_path st.current_dir (parsePath locStr) fuel = .ok q ∧
        st.root_path <+: q ∧ pth = relStr st.root_path q := by
  unfold read_file at h
  split at h
  · cases h
  · cases h
    exact Or.inl rfl
  · rename_i q heq
    split at h
    · cases h
      exact Or.inr ⟨q, heq, resolve_ok_within heq, rfl⟩
    · split at h
      · cases h
        exact Or.inr ⟨q, heq, resolve_ok_within heq, rfl⟩
      · split at h
        · cases h
        · cases h
          exact Or.inr ⟨q, heq, resolve_ok_within heq, rfl⟩

theorem read_file_errors_echo_path_witness :
    ("/nope" : String) = "nope" ∨
      ∃ q, resolvePathOutcome fsRootOnly ["r"] ["r"] (parsePath "nope") 10 = .ok q ∧
        ["r"] <+: q ∧ "/nope" = relStr ["r"] q :=
  read_file_errors_echo_path fsRootOnly ⟨["r"], ["r"]⟩ "nope" 10 "文件不存在" "/nope" (by decide)

/-- C2: at every observable point the cursor is at or beneath the root.  The
cursor starts at the root, only `change_directory` moves it, and it can only
be set to a path that passed the containment check, so every reachable state
has `root_path` as a lexical prefix of `current_dir`.  Moreover, from a
cursor standing at a clean canonical root, any number of repetitions of
`change_directory("..")` leaves the cursor at the root (each call is either
denied at the root's parent or, at the filesystem root, a no-op). -/
theorem cursor_containment :
    (∀ (fs : FS) (st : FileToolState), Reachable fs st → st.root_path <+: st.current_dir) ∧
    (∀ (fs : FS) (st : FileToolState) (fuel n : Nat),
      st.current_dir = st.root_path → cleanComps fs [] st.root_path = true →
      st.root_path.length + 2 ≤ fuel →
      (iterCd fs st ".." fuel n).current_dir = st.root_path) := by
  constructor
  · intro fs st h
    induction h with
    | init fs r => exact List.prefix_refl r
    | step fs st fuel op hre ih =>
      cases op with
      | cd loc =>
        rcases cd_cases fs st loc fuel with h | ⟨q, hok, h⟩
        · simpa [applyOp, h] using ih
        · have hpre := resolve_ok_within hok
          simpa [applyOp, h] using hpre
      | wr loc c => simpa [applyOp] using ih
      | mk loc => simpa [applyOp] using ih
      | rd loc => simpa [applyOp] using ih
      | ex loc => simpa [applyOp] using ih
      | tree loc => simpa [applyOp] using ih
      | pwd => simpa [applyOp] using ih
      | ls => simpa [applyOp] using ih
  · intro fs st fuel n hcur hclean hfuel
    have hfix : ∀ m, iterCd fs st ".." fuel m = st := by
      intro m
      induction m with
      | zero => rfl
      | succ k ih =>
        show (change_directory fs (iterCd fs st ".." fuel k) ".." fuel).1 = st
        rw [ih]
        exact cd_dotdot_fix hcur hclean hfuel
    rw [hfix n, hcur]

theorem cursor_containment_witness :
    ((⟨["r"], ["r"]⟩ : FileToolState).root_path <+:
      (⟨["r"], ["r"]⟩ : FileToolState).current_dir) ∧
    (iterCd fsRootOnly ⟨["r"], ["r"]⟩ ".." 10 3).current_dir = ["r"] :=
  ⟨cursor_containment.1 fsRootOnly ⟨["r"], ["r"]⟩ (Reachable.init fsRootOnly ["r"]),
    cursor_containment.2 fsRootOnly ⟨["r"], ["r"]⟩ 10 3 rfl (by decide) (by decide)⟩

/-- C7: `change_directory` commits the cursor only when the resolved target
is in-root, exists, and is a directory; on an out-of-root denial, a missing
target, or a non-directory target (any result other than the `已切换到`
success message), the state is returned exactly as it was. -/
theorem cd_failure_leaves_cursor (fs : FS) (st : FileToolState) (locStr : String) (fuel : Nat)
    (h : cdSucceeded (change_directory fs st locStr fuel).2 = false) :
    (change_directory fs st locStr fuel).1 = st := by
  unfold change_directory at h
  split at h
  · rename_i heq
    simp [change_directory, heq]
  · rename_i heq
    simp [change_directory, heq]
  · rename_i q heq
    by_cases h1 : (lstat fs q).isNone = true
    · simp [change_directory, heq, h1]
    · by_cases h2 : (lstat fs q == some Node.dir) = true
      · exfalso
        have hgc : get_current_directory { st with current_dir := q } =
            .ret ("/" ++ pyPathStr (q.drop st.root_path.length)) := by
          unfold get_current_directory
          rw [if_pos]
          show st.root_path.isPrefixOf q = true
          simp only [ List.isPrefixOf_iff_prefix]
          exact resolve_ok_within heq
        simp only [h1, h2, Bool.not_true, if_false, hgc] at h
        rw [if_neg Bool.false_ne_true, if_neg Bool.false_ne_true] at h
        have h' : "已切换到".data.isPrefixOf
            ("已切换到: " ++ ("/" ++ pyPathStr (q.drop st.root_path.length))).data = false := h
        rw [strData_isPrefixOf_append "已切换到" "已切换到: " _ (by decide)] at h'
        exact Bool.noConfusion h'
      · simp only [Bool.not_eq_true] at h1 h2
        simp [change_directory, heq, h1, h2]

theorem cd_failure_leaves_cursor_witness :
    (change_directory fsRootOnly ⟨["r"], ["r"]⟩ ".." 10).1 = ⟨["r"], ["r"]⟩ :=
  cd_failure_leaves_cursor fsRootOnly ⟨["r"], ["r"]⟩ ".." 10 (by decide)

/-- C6 (refuted): the claim says `change_directory` is idempotent under
repetition for every valid input.  With nested directories `/r/a` and
`/r/a/a`, the relative input `a` is valid at both calls — each resolves
in-root to an existing directory and succeeds — yet the first call leaves
the cursor at `/r/a` and the second at `/r/a/a`, because a relative input is
re-resolved against the cursor the first call just moved. -/
theorem cd_repeat_moves_deeper :
    cdSucceeded (change_directory fsNested ⟨["r"], ["r"]⟩ "a" 10).2 = true ∧
    (change_directory fsNested ⟨["r"], ["r"]⟩ "a" 10).1 = ⟨["r"], ["r", "a"]⟩ ∧
    cdSucceeded (change_directory fsNested ⟨["r"], ["r", "a"]⟩ "a" 10).2 = true ∧
    (change_directory fsNested ⟨["r"], ["r", "a"]⟩ "a" 10).1 = ⟨["r"], ["r", "a", "a"]⟩ ∧
    (⟨["r"], ["r", "a", "a"]⟩ : FileToolState) ≠ ⟨["r"], ["r", "a"]⟩ :=
  ⟨by decide, by decide, by decide, by decide, by decide⟩

/-- C6 (amended): `change_directory` is idempotent under repetition for
absolute inputs — an absolute input is re-anchored under the immutable root,
so its resolution is independent of the cursor and the second call lands on
(or fails exactly as) the first.  Relative inputs are re-resolved against
the new cursor and may move deeper. -/
theorem cd_absolute_idempotent (fs : FS) (st : FileToolState) (locStr : String) (fuel : Nat)
    (habs : (parsePath locStr).absolute = true) :
    (change_directory fs (change_directory fs st locStr fuel).1 locStr fuel).1.current_dir =
      (change_directory fs st locStr fuel).1.current_dir := by
  have hindep : ∀ cur cur' : List String,
      resolvePathOutcome fs st.root_path cur (parsePath locStr) fuel =
        resolvePathOutcome fs st.root_path cur' (parsePath locStr) fuel := by
    intro cur cur'
    unfold resolvePathOutcome anchor
    rw [habs]
    simp
  cases hr : resolvePathOutcome fs st.root_path st.current_dir (parsePath locStr) fuel with
  | exc =>
    have hin : (change_directory fs st locStr fuel).1 = st := by
      unfold change_directory
      rw [hr]
    rw [hin, hin]
  | denied =>
    have hin : (change_directory fs st locStr fuel).1 = st := by
      unfold change_directory
      rw [hr]
    rw [hin, hin]
  | ok q =>
    by_cases h1 : (lstat fs q).isNone = true
    · have hin : (change_directory fs st locStr fuel).1 = st := by
        unfold change_directory
        rw [hr]
        simp [h1]
      rw [hin, hin]
    · by_cases h2 : (lstat fs q == some Node.dir) = true
      · have hin : (change_directory fs st locStr fuel).1 = { st with current_dir := q } := by
          unfold change_directory
          rw [hr]
          simp only [h1, h2, Bool.not_true, if_false]
          rw [if_neg Bool.false_ne_true, if_neg Bool.false_ne_true]
          cases hgc : get_current_directory { st with current_dir := q } <;> rfl
        have hr2 : resolvePathOutcome fs st.root_path q (parsePath locStr) fuel = .ok q := by
          rw [hindep q st.current_dir]
          exact hr
        have hin2 : (change_directory fs { st with current_dir := q } locStr fuel).1 =
            { st with current_dir := q } := by
          unfold change_directory
          dsimp only
          rw [hr2]
          simp only [h1, h2, Bool.not_true, if_false]
          rw [if_neg Bool.false_ne_true, if_neg Bool.false_ne_true]
          cases hgc : get_current_directory { st with current_dir := q } <;> rfl
        rw [hin, hin2]
      · have hin : (change_directory fs st locStr fuel).1 = st := by
          unfold change_directory
          rw [hr]
          simp [h1, h2]
        rw [hin, hin]

theorem cd_absolute_idempotent_witness :
    (change_directory fsNested
        (change_directory fsNested ⟨["r"], ["r"]⟩ "/a" 10).1 "/a" 10).1.current_dir =
      (change_directory fsNested ⟨["r"], ["r"]⟩ "/a" 10).1.current_dir :=
  cd_absolute_idempotent fsNested ⟨["r"], ["r"]⟩ "/a" 10 (by decide)

/-- After a committed write the re-resolution of the same input reaches the
same canonical path — the write created only directories and a regular file,
never a symlink — and reading it returns the freshly written content. -/
theorem write_commit_read (fs fs1 : FS) (st : FileToolState) (p c : String) (fuel : Nat)
    (q : List String)
    (hr : resolvePathOutcome fs st.root_path st.current_dir (parsePath p) fuel = .ok q)
    (hm : mkdirsGo fs [] q.dropLast = some fs1)
    (hnl : linkTarget fs1 q = none) :
    read_file ((q, Node.file c) :: fs1) st p fuel =
      .ret (.ok (relStr st.root_path q) c) := by
  have hsym : ∀ pth, linkTarget fs pth = linkTarget ((q, Node.file c) :: fs1) pth := by
    intro pth
    have hstep : linkTarget fs pth = linkTarget fs1 pth := by
      rcases mkdirsGo_lstat hm pth with h1 | ⟨h1, h2⟩
      · unfold linkTarget
        rw [h1]
      · unfold linkTarget
        rw [h1, h2]
    rw [hstep]
    by_cases hp : q = pth
    · subst hp
      rw [hnl]
      unfold linkTarget
      rw [lstat_cons, if_pos rfl]
    · unfold linkTarget
      rw [lstat_cons, if_neg hp]
  obtain ⟨hq, hcc⟩ := resolve_ok_cases hr
  have hres' : resolveGo ((q, Node.file c) :: fs1) fuel []
      (anchor st.root_path st.current_dir (parsePath p)) = q := by
    rw [← resolveGo_congr hsym]
    exact hq.symm
  have hlq : lstat ((q, Node.file c) :: fs1) q = some (Node.file c) := by
    rw [lstat_cons, if_pos rfl]
  have hro : resolvePathOutcome ((q, Node.file c) :: fs1) st.root_path st.current_dir
      (parsePath p) fuel = .ok q := by
    unfold resolvePathOutcome
    rw [hres']
    apply containCheck_ok_intro
    rcases hcc with ⟨h1, h2⟩ | ⟨h1, h2⟩
    · exact Or.inl ⟨h1, h2⟩
    · refine Or.inr ⟨h1, ?_⟩
      rw [h1, hlq]
      rfl
  unfold read_file
  rw [hro]
  simp [hlq]

/-- C5: for every input path that resolves in-sandbox and every text, a
committed `write_file` (one that reported the `已写入文件` success message)
followed by `read_file` of the same input returns exactly the written text —
the write replaced whatever the path held before (the previous content, if
any, is quantified inside the arbitrary starting filesystem), so only the
last written text is readable. -/
theorem write_then_read_roundtrip (fs : FS) (st : FileToolState) (p c : String) (fuel : Nat)
    (fs' : FS) (s : String)
    (hw : write_file fs st p c fuel = (fs', PyResult.ret s))
    (hs : "已写入文件".data.isPrefixOf s.data = true) :
    ∃ pth, read_file fs' st p fuel = PyResult.ret (ReadDict.ok pth c) := by
  unfold write_file at hw
  split at hw
  · cases hw
  · cases hw
    exact absurd hs (by decide)
  · rename_i q heq
    split at hw
    · cases hw
      exact absurd hs (by decide)
    · rename_i fs1 hm
      cases hl : lstat fs1 q with
      | none =>
        rw [hl] at hw
        cases hw
        refine ⟨relStr st.root_path q,
          write_commit_read fs fs1 st p c fuel q heq hm ?_⟩
        unfold linkTarget
        rw [hl]
      | some n =>
        cases n with
        | dir =>
          rw [hl] at hw
          cases hw
          exact absurd hs (by decide)
        | symlink t =>
          rw [hl] at hw
          cases hw
          exact absurd hs (by decide)
        | file c0 =>
          rw [hl] at hw
          cases hw
          refine ⟨relStr st.root_path q,
            write_commit_read fs fs1 st p c fuel q heq hm ?_⟩
          unfold linkTarget
          rw [hl]

theorem write_then_read_roundtrip_witness :
    ∃ pth,
      read_file ((["r", "d", "f.txt"], Node.file "hello") :: (["r", "d"], Node.dir) :: fsRootOnly)
        ⟨["r"], ["r"]⟩ "d/f.txt" 10 = PyResult.ret (ReadDict.ok pth "hello") :=
  write_then_read_roundtrip fsRootOnly ⟨["r"], ["r"]⟩ "d/f.txt" "hello" 10
    ((["r", "d", "f.txt"], Node.file "hello") :: (["r", "d"], Node.dir) :: fsRootOnly)
    "已写入文件: /d/f.txt\n大小: 5 字节" (by decide) (by decide)

/-- C5 (refuted as universally stated): `.` is an in-sandbox path — it
resolves to the sandbox root — but `write_file(".", "hello")` does not make
`"hello"` readable at `.`: opening a directory for writing raises
`IsADirectoryError`, the write reports `写入文件失败` and changes nothing,
and `read_file(".")` returns the directory error, not the text. -/
theorem write_to_directory_no_roundtrip :
    write_file fsRootOnly ⟨["r"], ["r"]⟩ "." "hello" 10 =
      (fsRootOnly, PyResult.ret "写入文件失败: ") ∧
    read_file fsRootOnly ⟨["r"], ["r"]⟩ "." 10 =
      PyResult.ret (ReadDict.err "无法读取目录内容" "/.") :=
  ⟨by decide, by decide⟩
